import Mathlib

/-!
Verification development for the wfdiag session-orchestration engine
(Rust sources: `wfdiag-backend/src/service.rs`, `wfdiag-backend/src/models.rs`,
`wfdiag-backend/src/main.rs`, `src/diagnostics.rs`).

The embedding is shallow:
* `models.rs` data types become Lean structures (machine floats for
  `progress` are modelled by `ℚ`; every value the verified properties
  compare against — `0`, `1`, `k / n` with `k = n` — is exactly
  representable in `f32`, so the rational model is faithful on those
  comparisons; timestamps become a `Nat` ghost clock).
* The per-session concurrent execution (the spawned runner task in
  `service.rs::start_diagnostics` + `run_diagnostics_with_progress`,
  the 200 ms monitor/sampler task, and external `cancel_session` calls)
  becomes a small-step machine: each Rust lock-protected block is one
  atomic action, and arbitrary interleavings are action lists.
* The session store (`Arc<RwLock<HashMap<Uuid, Arc<Mutex<_>>>>>`) becomes a
  function `Nat → Option DiagnosticSession` with the exact operations the
  service performs on it.

External collaborators (filesystem setup, the zip packager, the collectors
themselves) are oracles in the environment `Env`: the code only branches on
their success or failure, never on their internal behaviour.
-/

namespace Wfdiag

/-- `SessionStatus` from `models.rs` lines 50-56. -/
inductive SessionStatus where
  | pending
  | running
  | completed
  | failed
  | cancelled
deriving DecidableEq, Repr

/-- `OutputFormat` from `models.rs` lines 22-26. -/
inductive OutputFormat where
  | json
  | zip
  | both
deriving DecidableEq, Repr

/-- `DiagnosticSession` from `models.rs` lines 35-46.  `progress: f32` is
modelled by `ℚ`; `DateTime<Utc>` timestamps by a `Nat` ghost clock;
`Uuid` by `Nat`. -/
structure DiagnosticSession where
  id : Nat
  status : SessionStatus
  progress : ℚ
  current_task : Option String
  completed_tasks : Nat
  total_tasks : Nat
  started_at : Nat
  completed_at : Option Nat
  output_path : Option String
  errors : List String
deriving DecidableEq, Repr

/-- `ProgressUpdate` from `models.rs` lines 59-68. -/
structure ProgressUpdate where
  session_id : Nat
  progress : ℚ
  status : SessionStatus
  current_task : Option String
  message : String
  completed_tasks : Nat
  total_tasks : Nat
  timestamp : Nat
deriving DecidableEq, Repr

/-- `DiagnosticTask` descriptor from `src/diagnostics.rs` lines 11-14
(the static catalog entry: display name + privilege requirement). -/
structure DiagnosticTask where
  name : String
  admin_required : Bool
deriving DecidableEq, Repr

/-- `DIAGNOSTIC_TASKS` from `src/diagnostics.rs` lines 16-54: the fixed
catalog, in declaration order; the last five entries are admin-only. -/
def DIAGNOSTIC_TASKS : List DiagnosticTask := [
  { name := "Computer System", admin_required := false },
  { name := "Operating System", admin_required := false },
  { name := "BIOS", admin_required := false },
  { name := "BaseBoard", admin_required := false },
  { name := "Processor", admin_required := false },
  { name := "Physical Memory", admin_required := false },
  { name := "Device Memory Address", admin_required := false },
  { name := "DMA Channel", admin_required := false },
  { name := "IRQ Resource", admin_required := false },
  { name := "Disk Drive", admin_required := false },
  { name := "Disk Partition", admin_required := false },
  { name := "System Devices", admin_required := false },
  { name := "Network Adapter", admin_required := false },
  { name := "Printer", admin_required := false },
  { name := "Environment", admin_required := false },
  { name := "Startup Command", admin_required := false },
  { name := "System Driver", admin_required := false },
  { name := "DXDiag", admin_required := false },
  { name := "SystemInfo", admin_required := false },
  { name := "Drivers", admin_required := false },
  { name := "Event Logs", admin_required := false },
  { name := "IPConfig", admin_required := false },
  { name := "Installed Programs", admin_required := false },
  { name := "Windows Store Apps", admin_required := false },
  { name := "System Services", admin_required := false },
  { name := "Processes", admin_required := false },
  { name := "Performance Data", admin_required := false },
  { name := "HOSTS File", admin_required := false },
  { name := "Dsregcmd", admin_required := false },
  { name := "Scheduled Tasks", admin_required := false },
  { name := "Windows Update Log", admin_required := false },
  { name := "Chkdsk", admin_required := true },
  { name := "DISM CheckHealth", admin_required := true },
  { name := "Battery Report", admin_required := true },
  { name := "Driver Verifier", admin_required := true },
  { name := "BSOD Minidump", admin_required := true }]

/-- The task-id derivation `task.name.to_lowercase().replace(" ", "_")`
used at `service.rs` lines 34, 218 and `main.rs` lines 107, 164.  For the
ASCII catalog names, lowercasing then replacing spaces equals the
per-character map below (lowercasing fixes the space character). -/
def rustTaskId (s : String) : String :=
  String.mk (s.data.map (fun ch => if ch = ' ' then '_' else ch.toLower))

/-- Modelled from the spec: `get_filtered_tasks` is called from
`service.rs` line 31 and `main.rs` lines 105, 161 but its definition is not
among the sources.  Spec section 4.1: return every descriptor whose
`adminRequired` is false, plus admin-only ones when admin is granted, in
catalog order.  The same predicate appears in the sources at
`src/diagnostics.rs` lines 67-69. -/
def get_filtered_tasks (isAdmin : Bool) : List DiagnosticTask :=
  DIAGNOSTIC_TASKS.filter (fun t => !t.admin_required || isAdmin)

/-- The resolution of requested ids performed by
`run_diagnostics_with_progress`, `service.rs` lines 215-220: keep the
catalog tasks whose derived id occurs in the request (catalog order,
duplicates in the request collapse, unknown ids silently drop out). -/
def selected_diagnostics (requested : List String) : List DiagnosticTask :=
  DIAGNOSTIC_TASKS.filter (fun t => requested.contains (rustTaskId t.name))

/-- The initial session record built by `start_diagnostics`,
`service.rs` lines 47-59.  Note `total_tasks` is
`request.selected_tasks.len()` — the number of *requested* ids. -/
def initial_session (sid : Nat) (now : Nat) (requested : List String) :
    DiagnosticSession :=
  { id := sid
    status := .pending
    progress := 0
    current_task := none
    completed_tasks := 0
    total_tasks := requested.length
    started_at := now
    completed_at := none
    output_path := none
    errors := [] }

/-- The `AppState` fields the backend actually uses
(`wfdiag-backend/src/main.rs` lines 23-35; GUI-only fields that the
orchestration never reads are omitted). -/
structure AppState where
  progress : ℚ
  status_text : String
  current_task : String
  is_running : Bool
  tasks_completed : Nat
  total_tasks : Nat
deriving DecidableEq, Repr

/-- Environment of one session run: the request plus the oracles for every
external collaborator the code branches on (directory setup, the zip
packager, per-collector success) and the opaque strings it receives from
them. -/
structure Env where
  sid : Nat
  requested : List String
  isAdmin : Bool
  setupOk : Bool
  zipOk : Bool
  failingTasks : List String
  failMsg : String
  setupErrMsg : String
  zipErrMsg : String
  desktop : String
  outputFormat : OutputFormat
deriving DecidableEq, Repr

/-- Modelled from the spec: `run_selected_diagnostics` (called at
`service.rs` line 265 and `src/gui.rs` line 64) is not among the sources.
Spec section 4.4 step 1: the runner executes the requested ids resolved
against the privilege-filtered catalog, in catalog order.  This composes
the admin filter that `run_all_diagnostics` applies in the sources
(`src/diagnostics.rs` lines 67-69) with the id resolution the service
itself performs (`service.rs` lines 215-220). -/
def resolvedTasks (env : Env) : List DiagnosticTask :=
  (get_filtered_tasks env.isAdmin).filter
    (fun t => env.requested.contains (rustTaskId t.name))

/-- Names of the resolved tasks, in execution order. -/
def resolvedNames (env : Env) : List String :=
  (resolvedTasks env).map (fun t => t.name)

/-- The stderr line printed on a collector failure,
`src/diagnostics.rs` line 132. -/
def stderrLine (name cause : String) : String :=
  "Error in task " ++ name ++ ": " ++ cause

/-- Output directory `desktop_path.join(format!("WindowsForum_{}", id))`,
`service.rs` line 189. -/
def output_dir_path (env : Env) : String :=
  env.desktop ++ "/WindowsForum_" ++ toString env.sid

/-- Zip path `desktop_path.join(format!("WF-Diag_{}.zip", id))`,
`service.rs` line 190. -/
def zip_path (env : Env) : String :=
  env.desktop ++ "/WF-Diag_" ++ toString env.sid ++ ".zip"

/-- `output_dir.with_extension("json")`, `service.rs` line 273; the final
path component `WindowsForum_<id>` contains no dot, so `with_extension`
appends `.json`. -/
def json_path (env : Env) : String :=
  output_dir_path env ++ ".json"

/-- The path `run_diagnostics_with_progress` returns on success,
`service.rs` lines 271-279. -/
def returned_path (env : Env) : String :=
  match env.outputFormat with
  | .json => json_path env
  | .zip => zip_path env
  | .both => zip_path env

/-- The `AppState` built by `run_diagnostics_with_progress`,
`service.rs` lines 200-212 (`total_tasks = selected_tasks.len()`, the
*requested* count). -/
def initial_app_state (requestedCount : Nat) : AppState :=
  { progress := 0
    status_text := ""
    current_task := ""
    is_running := true
    tasks_completed := 0
    total_tasks := requestedCount }

/-- Program counter of the runner task.  Each constructor is one atomic
block (one Rust lock scope, or one unlocked external call):
* `start` — set status Running, `service.rs` lines 181-185;
* `setup` — create output directories, lines 188-197 (may fail);
* `spawnMonitor` — spawn the sampler, line 226;
* `runInit` — the loop prologue of the diagnostics run,
  `src/diagnostics.rs` lines 61-78 (set `total_tasks`, reset counter);
* `taskName i` / `taskRun i` / `taskBump i` — the three phases of loop
  iteration `i`, `src/diagnostics.rs` lines 82-144;
* `zipPrep` — the pre-zip status block, lines 147-151;
* `zip` — `file_ops::create_zip`, line 153 (may fail);
* `finish` — the final status block, lines 156-162;
* `abortMonitor` — `monitor_handle.abort()`, `service.rs` line 268
  (reached only on success: the `?` on line 265 returns first on error);
* `finalizeOk` / `finalizeErr` — the terminal session write plus the final
  progress send, executed under one session lock,
  `service.rs` lines 80-110;
* `done` — the spawned task has exited. -/
inductive RunnerPc where
  | start
  | setup
  | spawnMonitor
  | runInit
  | taskName (i : Nat)
  | taskRun (i : Nat)
  | taskBump (i : Nat)
  | zipPrep
  | zip
  | finish
  | abortMonitor
  | finalizeOk
  | finalizeErr (msg : String)
  | done
deriving DecidableEq, Repr

/-- State of the 200 ms monitor/sampler task
(`service.rs` lines 226-262):
* `off` — not yet spawned;
* `idle` — between ticks;
* `holding` — it has read the `AppState` under the app lock
  (lines 231-235) and not yet performed the session write-back + send
  (lines 237-256); the read values are buffered;
* `stopped` — it broke out on `is_running == false` (lines 258-260) or
  was aborted. -/
inductive SamplerState where
  | off
  | idle
  | holding (p : ℚ) (st : String) (ct : String) (tc : Nat) (tt : Nat)
      (ir : Bool)
  | stopped
deriving DecidableEq, Repr

/-- One interleaved configuration of a session: the shared session record,
the shared `AppState`, both concurrent actors, the emitted update stream,
and ghost observations (which collectors were invoked, what was printed to
stderr, a logical clock standing in for `Utc::now()`). -/
structure Config where
  sess : DiagnosticSession
  app : AppState
  pc : RunnerPc
  sampler : SamplerState
  updates : List ProgressUpdate
  executed : List String
  stderrLog : List String
  clock : Nat
deriving DecidableEq, Repr

/-- Atomic actions the three concurrent actors can take: one runner block,
the sampler's read phase, the sampler's write-back+send phase, or an
external `cancel_session` call on this session. -/
inductive Action where
  | runner
  | samplerRead
  | samplerWrite
  | cancel
deriving DecidableEq, Repr

instance : Fintype Action :=
  ⟨⟨{Action.runner, Action.samplerRead, Action.samplerWrite,
     Action.cancel}, by decide⟩, by intro x; cases x <;> decide⟩

/-- Initial configuration: the Pending record `start_diagnostics` inserted
(lines 47-62) and the app state it will build; runner about to execute its
first block; sampler not yet spawned. -/
def init_config (env : Env) : Config :=
  { sess := initial_session env.sid 0 env.requested
    app := initial_app_state env.requested.length
    pc := .start
    sampler := .off
    updates := []
    executed := []
    stderrLog := []
    clock := 1 }

/-- One atomic block of the runner task (see `RunnerPc`).  `none` when the
runner has exited. -/
def runnerStep (env : Env) (c : Config) : Option Config :=
  let names := resolvedNames env
  let N := names.length
  match c.pc with
  | .start =>
      some { c with
        sess := { c.sess with status := .running, started_at := c.clock }
        pc := .setup, clock := c.clock + 1 }
  | .setup =>
      if env.setupOk then
        some { c with pc := .spawnMonitor, clock := c.clock + 1 }
      else
        some { c with
          pc := .finalizeErr env.setupErrMsg
          clock := c.clock + 1 }
  | .spawnMonitor =>
      some { c with sampler := .idle, pc := .runInit, clock := c.clock + 1 }
  | .runInit =>
      if N = 0 then
        some { c with
          app := { c.app with total_tasks := N, tasks_completed := 0 }
          pc := .zipPrep
          clock := c.clock + 1 }
      else
        some { c with
          app := { c.app with total_tasks := N, tasks_completed := 0 }
          pc := .taskName 0
          clock := c.clock + 1 }
  | .taskName i =>
      let nm := names.getD i ""
      some { c with
        app := { c.app with
          current_task := nm
          status_text := "Running " ++ nm ++ "..." }
        pc := .taskRun i, clock := c.clock + 1 }
  | .taskRun i =>
      let nm := names.getD i ""
      some { c with
        executed := c.executed ++ [nm]
        stderrLog :=
          if env.failingTasks.contains nm then
            c.stderrLog ++ [stderrLine nm env.failMsg]
          else c.stderrLog
        pc := .taskBump i, clock := c.clock + 1 }
  | .taskBump i =>
      if i + 1 < N then
        some { c with
          app := { c.app with
            tasks_completed := i + 1
            progress := ((i : ℚ) + 1) / (N : ℚ) }
          pc := .taskName (i + 1)
          clock := c.clock + 1 }
      else
        some { c with
          app := { c.app with
            tasks_completed := i + 1
            progress := ((i : ℚ) + 1) / (N : ℚ) }
          pc := .zipPrep
          clock := c.clock + 1 }
  | .zipPrep =>
      some { c with
        app := { c.app with
          status_text := "Creating zip file..."
          current_task := "Compression" }
        pc := .zip, clock := c.clock + 1 }
  | .zip =>
      if env.zipOk then
        some { c with pc := .finish, clock := c.clock + 1 }
      else
        some { c with
          pc := .finalizeErr env.zipErrMsg
          clock := c.clock + 1 }
  | .finish =>
      some { c with
        app := { c.app with
          status_text := "Complete! Results saved to " ++ zip_path env
          current_task := "Finished", progress := 1, is_running := false }
        pc := .abortMonitor, clock := c.clock + 1 }
  | .abortMonitor =>
      some { c with
        sampler := .stopped
        pc := .finalizeOk
        clock := c.clock + 1 }
  | .finalizeOk =>
      let s' := { c.sess with
        status := SessionStatus.completed
        output_path := some (returned_path env)
        completed_at := some c.clock }
      some { c with
        sess := s'
        updates := c.updates ++ [{
          session_id := env.sid
          progress := s'.progress
          status := s'.status
          current_task := s'.current_task
          message := "Diagnostics completed successfully"
          completed_tasks := s'.completed_tasks
          total_tasks := s'.total_tasks
          timestamp := c.clock }]
        pc := .done, clock := c.clock + 1 }
  | .finalizeErr msg =>
      let s' := { c.sess with
        status := SessionStatus.failed
        errors := c.sess.errors ++ [msg]
        completed_at := some c.clock }
      some { c with
        sess := s'
        updates := c.updates ++ [{
          session_id := env.sid
          progress := s'.progress
          status := s'.status
          current_task := s'.current_task
          message := "Diagnostics failed: " ++
            String.intercalate ", " s'.errors
          completed_tasks := s'.completed_tasks
          total_tasks := s'.total_tasks
          timestamp := c.clock }]
        pc := .done, clock := c.clock + 1 }
  | .done => none

/-- The sampler's read phase (`service.rs` lines 231-235): buffer the app
state under the app lock.  Enabled only when the sampler is idle. -/
def samplerReadStep (c : Config) : Option Config :=
  match c.sampler with
  | .idle =>
      some { c with
        sampler := .holding c.app.progress c.app.status_text
          c.app.current_task c.app.tasks_completed c.app.total_tasks
          c.app.is_running
        clock := c.clock + 1 }
  | _ => none

/-- The sampler's write-back + send phase (`service.rs` lines 237-260):
under the session lock copy progress / current task / completed count into
the session record — the *status* is read, never written — build the
update from the buffered values and the session's current status, send it,
then loop or break on the buffered `is_running`. -/
def samplerWriteStep (env : Env) (c : Config) : Option Config :=
  match c.sampler with
  | .holding p st ct tc tt ir =>
      let curr : Option String := if ct = "" then none else some ct
      some { c with
        sess := { c.sess with
          progress := p
          current_task := curr
          completed_tasks := tc }
        updates := c.updates ++ [{
          session_id := env.sid
          progress := p
          status := c.sess.status
          current_task := curr
          message := st
          completed_tasks := tc
          total_tasks := tt
          timestamp := c.clock }]
        sampler := if ir then .idle else .stopped
        clock := c.clock + 1 }
  | _ => none

/-- An external `cancel_session` call landing on this session
(`service.rs` lines 125-139): flip the status to Cancelled and stamp
`completed_at` when the status is Running, otherwise leave everything
unchanged (the caller gets an error).  Always enabled — the HTTP handler
can run at any time. -/
def cancelStep (c : Config) : Option Config :=
  if c.sess.status = SessionStatus.running then
    some { c with
      sess := { c.sess with
        status := .cancelled
        completed_at := some c.clock }
      clock := c.clock + 1 }
  else
    some { c with clock := c.clock + 1 }

/-- One interleaving step. -/
def step (env : Env) (c : Config) : Action → Option Config
  | .runner => runnerStep env c
  | .samplerRead => samplerReadStep c
  | .samplerWrite => samplerWriteStep env c
  | .cancel => cancelStep c

/-- Run a list of actions; `none` if some action was not enabled. -/
def run (env : Env) (c : Config) : List Action → Option Config
  | [] => some c
  | a :: rest =>
      match step env c a with
      | none => none
      | some c' => run env c' rest

/-- The session store `Arc<RwLock<HashMap<Uuid, Arc<Mutex<_>>>>>`
(`service.rs` line 12), as a map from ids to session records. -/
def StoreF : Type := Nat → Option DiagnosticSession

/-- The store write performed by `start_diagnostics`, `service.rs`
line 62: a plain `HashMap::insert`, which replaces any existing entry for
the same key and signals nothing. -/
def store_insert (s : StoreF) (sid : Nat) (v : DiagnosticSession) :
    StoreF :=
  fun k => if k = sid then some v else s k

/-- Result of `cancel_session` (`anyhow::Result<()>`, with the two error
messages of `service.rs` lines 134 and 137). -/
inductive CancelResult where
  | ok
  | errNotRunning
  | errNotFound
deriving DecidableEq, Repr

/-- `DiagnosticService::cancel_session`, `service.rs` lines 125-139:
look the session up; if it is Running, set status Cancelled and stamp
`completed_at`; otherwise return an error and touch nothing. -/
def cancel_session (s : StoreF) (sid : Nat) (now : Nat) :
    StoreF × CancelResult :=
  match s sid with
  | none => (s, .errNotFound)
  | some sess =>
      if sess.status = SessionStatus.running then
        (fun k =>
          if k = sid then
            some { sess with
              status := SessionStatus.cancelled
              completed_at := some now }
          else s k,
         .ok)
      else (s, .errNotRunning)

/-! ### The reachability invariant of the session machine -/

/-- Loop index named by a runner program counter, if any. -/
def loopIndex? : RunnerPc → Option Nat
  | .taskName i => some i
  | .taskRun i => some i
  | .taskBump i => some i
  | _ => none

/-- How many collectors have been invoked when the runner is at a given
program counter (out of `n` resolved tasks). -/
def pcCount (p : RunnerPc) (n : Nat) : Nat :=
  match p with
  | .start => 0
  | .setup => 0
  | .spawnMonitor => 0
  | .runInit => 0
  | .taskName i => i
  | .taskRun i => i
  | .taskBump i => i + 1
  | _ => n

/-- The inductive invariant of one session's interleaved execution.
`N` abbreviates the resolved task count, `R` the requested id count. -/
structure Inv (env : Env) (c : Config) : Prop where
  total_eq : c.sess.total_tasks = env.requested.length
  app_le : c.app.tasks_completed ≤ (resolvedNames env).length
  sess_le : c.sess.completed_tasks ≤ (resolvedNames env).length
  hold_le : ∀ p st ct tc tt ir,
    c.sampler = .holding p st ct tc tt ir →
    tc ≤ (resolvedNames env).length
  loop_lt : ∀ i, loopIndex? c.pc = some i → i < (resolvedNames env).length
  term_iff :
    (c.sess.status = .completed ∨ c.sess.status = .failed) ↔ c.pc = .done
  out_iff : c.sess.output_path.isSome ↔ c.sess.status = .completed
  out_val : c.sess.output_path = none ∨
    c.sess.output_path = some (returned_path env)
  exec_eq : env.setupOk = true →
    c.executed =
      (resolvedNames env).take (pcCount c.pc (resolvedNames env).length)
  stderr_eq : c.stderrLog =
    (c.executed.filter (fun n => env.failingTasks.contains n)).map
      (fun n => stderrLine n env.failMsg)
  okpath : env.setupOk = true → env.zipOk = true →
    (∀ m, c.pc ≠ .finalizeErr m) ∧ c.sess.errors = [] ∧
    (c.pc = .done → c.sess.status = .completed)
  oksampler : env.setupOk = true → env.zipOk = true →
    ((c.pc = .finalizeOk ∨ c.pc = .done) → c.sampler = .stopped) ∧
    (c.pc = .done →
      (c.updates.getLast?).map (fun u => u.status) =
        some SessionStatus.completed)


/-! ### Concrete environments and runs used as test vectors -/

/-- A request for the single id `processor`, all collaborators
succeeding. -/
def envOneTask : Env :=
  { sid := 0
    requested := ["processor"]
    isAdmin := false
    setupOk := true
    zipOk := true
    failingTasks := []
    failMsg := "boom"
    setupErrMsg := "cannot create output directory"
    zipErrMsg := "zip failed"
    desktop := "/home/user/Desktop"
    outputFormat := .zip }

/-- Five valid ids, in catalog order. -/
def envFiveTasks : Env := { envOneTask with
  requested := ["computer_system", "operating_system", "bios",
    "baseboard", "processor"] }

/-- One valid id plus an unknown one. -/
def envUnknown : Env := { envOneTask with
  requested := ["processor", "unknown_id"] }

/-- A request with a duplicate and an unknown id. -/
def envDupUnknown : Env := { envOneTask with
  requested := ["processor", "processor", "unknown_id"] }

/-- The zip packager fails. -/
def envZipFail : Env := { envOneTask with zipOk := false }

/-- The single requested collector always fails. -/
def envFailingCollector : Env := { envOneTask with
  failingTasks := ["Processor"] }

/-- The full undisturbed runner schedule of a one-task session
(12 atomic runner blocks from `start` to `done`). -/
def doneOneTask : Config :=
  (run envOneTask (init_config envOneTask)
    (List.replicate 12 Action.runner)).get (by decide)

/-- A completed one-task run whose request also named an unknown id. -/
def doneUnknown : Config :=
  (run envUnknown (init_config envUnknown)
    (List.replicate 12 Action.runner)).get (by decide)

/-- A completed run of the always-failing collector. -/
def doneFailing : Config :=
  (run envFailingCollector (init_config envFailingCollector)
    (List.replicate 12 Action.runner)).get (by decide)

/-- A five-task run cancelled while task 2 was executing, sampled after
the last task, then run to completion. -/
def doneFiveCancelled : Config :=
  (run envFiveTasks (init_config envFiveTasks)
    (List.replicate 8 Action.runner ++ [Action.cancel] ++
      List.replicate 11 Action.runner ++
      [Action.samplerRead, Action.samplerWrite] ++
      List.replicate 5 Action.runner)).get (by decide)

/-- A duplicate/unknown-id run sampled right after its only task. -/
def midDupUnknown : Config :=
  (run envDupUnknown (init_config envDupUnknown)
    (List.replicate 7 Action.runner ++
      [Action.samplerRead, Action.samplerWrite])).get (by decide)

/-- A Running session stored under id 5. -/
def sessRunning : DiagnosticSession :=
  { initial_session 5 0 ["processor"] with
    status := SessionStatus.running }

/-- A Pending session stored under id 6. -/
def sessPending : DiagnosticSession := initial_session 6 0 []

/-- A store holding only the Running session. -/
def storeRunning : StoreF := store_insert (fun _ => none) 5 sessRunning

/-- A store holding only the Pending session. -/
def storePending : StoreF := store_insert (fun _ => none) 6 sessPending

/-- First session inserted under id 7. -/
def sessFirst : DiagnosticSession := initial_session 7 0 ["processor"]

/-- A different record carrying the same id 7. -/
def sessSecond : DiagnosticSession := initial_session 7 0 []

/-- A store already holding id 7. -/
def storeWithFirst : StoreF := store_insert (fun _ => none) 7 sessFirst

/-! ### Static facts about the catalog and the resolution -/

/-- The derived ids of the 36 catalog entries are pairwise distinct
(uniqueness of `id` within the catalog, spec section 3). -/
theorem catalog_ids_nodup :
    (DIAGNOSTIC_TASKS.map (fun t => rustTaskId t.name)).Nodup := by decide

/-- The resolved task list is a sublist of the catalog. -/
theorem resolvedTasks_sublist (env : Env) :
    List.Sublist (resolvedTasks env) DIAGNOSTIC_TASKS := by
  have h2 : List.Sublist (resolvedTasks env) (get_filtered_tasks env.isAdmin) :=
    List.filter_sublist _
  have h1 : List.Sublist (get_filtered_tasks env.isAdmin) DIAGNOSTIC_TASKS :=
    List.filter_sublist _
  exact h2.trans h1

/-- At most one catalog task resolves per requested id, so the resolved
list is never longer than the request — even when the request holds
duplicates or unknown ids. -/
theorem resolved_le (env : Env) :
    (resolvedNames env).length ≤ env.requested.length := by
  have hnodup :
      ((resolvedTasks env).map (fun t => rustTaskId t.name)).Nodup :=
    catalog_ids_nodup.sublist ((resolvedTasks_sublist env).map _)
  have hsubset :
      ((resolvedTasks env).map (fun t => rustTaskId t.name)) ⊆
        env.requested := by
    intro x hx
    simp only [List.mem_map] at hx
    obtain ⟨t, ht, rfl⟩ := hx
    have hmem := List.of_mem_filter (p :=
      fun t : DiagnosticTask => env.requested.contains (rustTaskId t.name)) ht
    simpa using hmem
  have hle := (List.subperm_of_subset hnodup hsubset).length_le
  simpa [resolvedNames] using hle

/-- Every resolved task's id occurs in the request. -/
theorem resolved_mem_requested (env : Env) :
    ∀ t, t ∈ resolvedTasks env → rustTaskId t.name ∈ env.requested := by
  intro t ht
  have hmem := List.of_mem_filter (p :=
    fun t : DiagnosticTask => env.requested.contains (rustTaskId t.name)) ht
  simpa using hmem

/-- The success path always returns a non-empty output path string. -/
theorem returned_path_ne_empty (env : Env) : returned_path env ≠ "" := by
  intro h
  have hlen : (returned_path env).length = 0 := by rw [h]; rfl
  cases hof : env.outputFormat <;>
    simp [returned_path, hof, json_path, zip_path, output_dir_path,
      String.length_append] at hlen <;>
    exact absurd hlen.2 (by decide)

/-- The initial configuration satisfies the invariant. -/
theorem init_inv (env : Env) : Inv env (init_config env) := by
  refine ⟨rfl, ?_, ?_, ?_, ?_, ?_, ?_, ?_, ?_, ?_, ?_, ?_⟩ <;>
    simp [init_config, initial_session, initial_app_state, loopIndex?,
      pcCount]

/-- A configuration whose runner has not finished cannot show a
run-terminal (Completed/Failed) status. -/
theorem not_done_not_terminal (env : Env) (c : Config) (h : Inv env c)
    (hne : c.pc ≠ RunnerPc.done) :
    c.sess.status ≠ SessionStatus.completed ∧
    c.sess.status ≠ SessionStatus.failed := by
  constructor
  · intro hc; exact hne (h.term_iff.mp (Or.inl hc))
  · intro hc; exact hne (h.term_iff.mp (Or.inr hc))

/-- A non-Completed session has no output path yet. -/
theorem not_completed_out_none (env : Env) (c : Config) (h : Inv env c)
    (hnc : c.sess.status ≠ SessionStatus.completed) :
    c.sess.output_path = none := by
  rcases hv : c.sess.output_path with _ | p
  · rfl
  · exact absurd (h.out_iff.mp (by rw [hv]; rfl)) hnc

/-- `cancel_session` steps preserve the invariant: it only ever flips a
Running status to Cancelled. -/
theorem cancelStep_inv (env : Env) (c c' : Config) (h : Inv env c)
    (hs : cancelStep c = some c') : Inv env c' := by
  unfold cancelStep at hs
  split at hs
  case isTrue hrun =>
    obtain rfl : _ = c' := Option.some.inj hs
    have hnd : c.pc ≠ RunnerPc.done := by
      intro hd
      rcases h.term_iff.mpr hd with hcf | hcf <;> rw [hrun] at hcf <;>
        exact SessionStatus.noConfusion hcf
    refine ⟨h.total_eq, h.app_le, h.sess_le, h.hold_le, h.loop_lt, ?_, ?_,
      h.out_val, h.exec_eq, h.stderr_eq, ?_, ?_⟩
    · constructor
      · rintro (hc | hc) <;> exact SessionStatus.noConfusion hc
      · intro hd; exact absurd hd hnd
    · constructor
      · intro hsome
        have hnc : c.sess.status ≠ SessionStatus.completed :=
          (not_done_not_terminal env c h hnd).1
        exact absurd (h.out_iff.mp hsome) hnc
      · intro hc; exact SessionStatus.noConfusion hc
    · intro hset hzip
      obtain ⟨hne, herr, _⟩ := h.okpath hset hzip
      exact ⟨hne, herr, fun hd => absurd hd hnd⟩
    · intro hset hzip
      exact h.oksampler hset hzip
  case isFalse =>
    obtain rfl : _ = c' := Option.some.inj hs
    exact ⟨h.total_eq, h.app_le, h.sess_le, h.hold_le, h.loop_lt,
      h.term_iff, h.out_iff, h.out_val, h.exec_eq, h.stderr_eq,
      h.okpath, h.oksampler⟩

/-- The sampler's read phase preserves the invariant: the buffered
counter is the runner's, which is bounded by the resolved count. -/
theorem samplerReadStep_inv (env : Env) (c c' : Config) (h : Inv env c)
    (hs : samplerReadStep c = some c') : Inv env c' := by
  unfold samplerReadStep at hs
  cases hsam : c.sampler <;> rw [hsam] at hs
  case off => exact Option.noConfusion hs
  case holding => exact Option.noConfusion hs
  case stopped => exact Option.noConfusion hs
  case idle =>
    obtain rfl : _ = c' := Option.some.inj hs
    refine ⟨h.total_eq, h.app_le, h.sess_le, ?_, h.loop_lt, h.term_iff,
      h.out_iff, h.out_val, h.exec_eq, h.stderr_eq, h.okpath, ?_⟩
    · intro p st ct tc tt ir heq
      injection heq with h1 h2 h3 h4 h5 h6
      rw [← h4]
      exact h.app_le
    · intro hset hzip
      obtain ⟨hstop, hlast⟩ := h.oksampler hset hzip
      constructor
      · intro hpc
        have hcontra := hstop hpc
        rw [hsam] at hcontra
        exact SamplerState.noConfusion hcontra
      · exact hlast

/-- The sampler's write-back + send phase preserves the invariant: it
copies a bounded counter, reads (never writes) the status, and on the
success path cannot run at all once the runner is done (it was aborted). -/
theorem samplerWriteStep_inv (env : Env) (c c' : Config) (h : Inv env c)
    (hs : samplerWriteStep env c = some c') : Inv env c' := by
  unfold samplerWriteStep at hs
  cases hsam : c.sampler <;> rw [hsam] at hs
  case off => exact Option.noConfusion hs
  case idle => exact Option.noConfusion hs
  case stopped => exact Option.noConfusion hs
  case holding p st ct tc tt ir =>
    obtain rfl : _ = c' := Option.some.inj hs
    have htc : tc ≤ (resolvedNames env).length := h.hold_le p st ct tc tt ir hsam
    refine ⟨h.total_eq, h.app_le, htc, ?_, h.loop_lt, h.term_iff,
      h.out_iff, h.out_val, h.exec_eq, h.stderr_eq, h.okpath, ?_⟩
    · intro p' st' ct' tc' tt' ir' heq
      cases ir <;> dsimp at heq <;> exact SamplerState.noConfusion heq
    · intro hset hzip
      obtain ⟨hstop, _⟩ := h.oksampler hset hzip
      constructor
      · intro hpc
        have hcontra := hstop hpc
        rw [hsam] at hcontra
        exact SamplerState.noConfusion hcontra
      · intro hd
        have hcontra := hstop (Or.inr hd)
        rw [hsam] at hcontra
        exact SamplerState.noConfusion hcontra

/-- Before the runner's terminal write the session has no output path. -/
theorem out_none_of_not_done (env : Env) (c : Config) (h : Inv env c)
    (hnd : c.pc ≠ RunnerPc.done) : c.sess.output_path = none :=
  not_completed_out_none env c h (not_done_not_terminal env c h hnd).1

/-- Every runner block preserves the invariant. -/
theorem runnerStep_inv (env : Env) (c c' : Config) (h : Inv env c)
    (hs : runnerStep env c = some c') : Inv env c' := by
  unfold runnerStep at hs
  cases hpc : c.pc <;> rw [hpc] at hs <;> dsimp only at hs
  case start =>
    obtain rfl : _ = c' := Option.some.inj hs
    have hnd : c.pc ≠ RunnerPc.done := by rw [hpc]; decide
    have hout : c.sess.output_path = none := out_none_of_not_done env c h hnd
    refine ⟨h.total_eq, h.app_le, h.sess_le, h.hold_le, ?_, ?_, ?_,
      h.out_val, ?_, h.stderr_eq, ?_, ?_⟩
    · intro i hi; simp [loopIndex?] at hi
    · constructor
      · rintro (hc | hc) <;> exact SessionStatus.noConfusion hc
      · intro hd; exact RunnerPc.noConfusion hd
    · dsimp only
      rw [hout]
      simp
    · intro hset
      have he := h.exec_eq hset
      rw [hpc] at he
      simpa [pcCount] using he
    · intro hset hzip
      obtain ⟨-, herr, -⟩ := h.okpath hset hzip
      exact ⟨fun m hm => RunnerPc.noConfusion hm, herr,
        fun hd => RunnerPc.noConfusion hd⟩
    · intro hset hzip
      constructor
      · rintro (hx | hx) <;> exact RunnerPc.noConfusion hx
      · intro hd; exact RunnerPc.noConfusion hd
  case setup =>
    split at hs
    case isTrue hset0 =>
      obtain rfl : _ = c' := Option.some.inj hs
      refine ⟨h.total_eq, h.app_le, h.sess_le, h.hold_le, ?_, ?_,
        h.out_iff, h.out_val, ?_, h.stderr_eq, ?_, ?_⟩
      · intro i hi; simp [loopIndex?] at hi
      · constructor
        · intro hcf
          have hdd := h.term_iff.mp hcf
          rw [hpc] at hdd
          exact RunnerPc.noConfusion hdd
        · intro hd; exact RunnerPc.noConfusion hd
      · intro hset
        have he := h.exec_eq hset
        rw [hpc] at he
        simpa [pcCount] using he
      · intro hset hzip
        obtain ⟨-, herr, -⟩ := h.okpath hset hzip
        exact ⟨fun m hm => RunnerPc.noConfusion hm, herr,
          fun hd => RunnerPc.noConfusion hd⟩
      · intro hset hzip
        constructor
        · rintro (hx | hx) <;> exact RunnerPc.noConfusion hx
        · intro hd; exact RunnerPc.noConfusion hd
    case isFalse hsetF =>
      obtain rfl : _ = c' := Option.some.inj hs
      refine ⟨h.total_eq, h.app_le, h.sess_le, h.hold_le, ?_, ?_,
        h.out_iff, h.out_val, ?_, h.stderr_eq, ?_, ?_⟩
      · intro i hi; simp [loopIndex?] at hi
      · constructor
        · intro hcf
          have hdd := h.term_iff.mp hcf
          rw [hpc] at hdd
          exact RunnerPc.noConfusion hdd
        · intro hd; exact RunnerPc.noConfusion hd
      · intro hset; exact absurd hset hsetF
      · intro hset hzip; exact absurd hset hsetF
      · intro hset hzip; exact absurd hset hsetF
  case spawnMonitor =>
    obtain rfl : _ = c' := Option.some.inj hs
    refine ⟨h.total_eq, h.app_le, h.sess_le, ?_, ?_, ?_,
      h.out_iff, h.out_val, ?_, h.stderr_eq, ?_, ?_⟩
    · intro p st ct tc tt ir heq; exact SamplerState.noConfusion heq
    · intro i hi; simp [loopIndex?] at hi
    · constructor
      · intro hcf
        have hdd := h.term_iff.mp hcf
        rw [hpc] at hdd
        exact RunnerPc.noConfusion hdd
      · intro hd; exact RunnerPc.noConfusion hd
    · intro hset
      have he := h.exec_eq hset
      rw [hpc] at he
      simpa [pcCount] using he
    · intro hset hzip
      obtain ⟨-, herr, -⟩ := h.okpath hset hzip
      exact ⟨fun m hm => RunnerPc.noConfusion hm, herr,
        fun hd => RunnerPc.noConfusion hd⟩
    · intro hset hzip
      constructor
      · rintro (hx | hx) <;> exact RunnerPc.noConfusion hx
      · intro hd; exact RunnerPc.noConfusion hd
  case runInit =>
    split at hs
    case isTrue hN =>
      obtain rfl : _ = c' := Option.some.inj hs
      refine ⟨h.total_eq, Nat.zero_le _, h.sess_le, h.hold_le, ?_, ?_,
        h.out_iff, h.out_val, ?_, h.stderr_eq, ?_, ?_⟩
      · intro i hi; simp [loopIndex?] at hi
      · constructor
        · intro hcf
          have hdd := h.term_iff.mp hcf
          rw [hpc] at hdd
          exact RunnerPc.noConfusion hdd
        · intro hd; exact RunnerPc.noConfusion hd
      · intro hset
        have he := h.exec_eq hset
        rw [hpc] at he
        simp only [pcCount] at he ⊢
        rw [hN]
        exact he
      · intro hset hzip
        obtain ⟨-, herr, -⟩ := h.okpath hset hzip
        exact ⟨fun m hm => RunnerPc.noConfusion hm, herr,
          fun hd => RunnerPc.noConfusion hd⟩
      · intro hset hzip
        constructor
        · rintro (hx | hx) <;> exact RunnerPc.noConfusion hx
        · intro hd; exact RunnerPc.noConfusion hd
    case isFalse hN =>
      obtain rfl : _ = c' := Option.some.inj hs
      refine ⟨h.total_eq, Nat.zero_le _, h.sess_le, h.hold_le, ?_, ?_,
        h.out_iff, h.out_val, ?_, h.stderr_eq, ?_, ?_⟩
      · intro i hi
        simp [loopIndex?] at hi
        rw [← hi]
        exact Nat.pos_of_ne_zero hN
      · constructor
        · intro hcf
          have hdd := h.term_iff.mp hcf
          rw [hpc] at hdd
          exact RunnerPc.noConfusion hdd
        · intro hd; exact RunnerPc.noConfusion hd
      · intro hset
        have he := h.exec_eq hset
        rw [hpc] at he
        simpa [pcCount] using he
      · intro hset hzip
        obtain ⟨-, herr, -⟩ := h.okpath hset hzip
        exact ⟨fun m hm => RunnerPc.noConfusion hm, herr,
          fun hd => RunnerPc.noConfusion hd⟩
      · intro hset hzip
        constructor
        · rintro (hx | hx) <;> exact RunnerPc.noConfusion hx
        · intro hd; exact RunnerPc.noConfusion hd
  case taskName i =>
    obtain rfl : _ = c' := Option.some.inj hs
    have hi : i < (resolvedNames env).length :=
      h.loop_lt i (by rw [hpc]; rfl)
    refine ⟨h.total_eq, h.app_le, h.sess_le, h.hold_le, ?_, ?_,
      h.out_iff, h.out_val, ?_, h.stderr_eq, ?_, ?_⟩
    · intro j hj
      simp [loopIndex?] at hj
      rw [← hj]
      exact hi
    · constructor
      · intro hcf
        have hdd := h.term_iff.mp hcf
        rw [hpc] at hdd
        exact RunnerPc.noConfusion hdd
      · intro hd; exact RunnerPc.noConfusion hd
    · intro hset
      have he := h.exec_eq hset
      rw [hpc] at he
      simpa [pcCount] using he
    · intro hset hzip
      obtain ⟨-, herr, -⟩ := h.okpath hset hzip
      exact ⟨fun m hm => RunnerPc.noConfusion hm, herr,
        fun hd => RunnerPc.noConfusion hd⟩
    · intro hset hzip
      constructor
      · rintro (hx | hx) <;> exact RunnerPc.noConfusion hx
      · intro hd; exact RunnerPc.noConfusion hd
  case taskRun i =>
    obtain rfl : _ = c' := Option.some.inj hs
    have hi : i < (resolvedNames env).length :=
      h.loop_lt i (by rw [hpc]; rfl)
    refine ⟨h.total_eq, h.app_le, h.sess_le, h.hold_le, ?_, ?_,
      h.out_iff, h.out_val, ?_, ?_, ?_, ?_⟩
    · intro j hj
      simp [loopIndex?] at hj
      rw [← hj]
      exact hi
    · constructor
      · intro hcf
        have hdd := h.term_iff.mp hcf
        rw [hpc] at hdd
        exact RunnerPc.noConfusion hdd
      · intro hd; exact RunnerPc.noConfusion hd
    · intro hset
      have he := h.exec_eq hset
      rw [hpc] at he
      simp only [pcCount] at he ⊢
      rw [he, List.take_succ, List.getElem?_eq_getElem hi]
      simp [List.getD_eq_getElem?_getD, List.getElem?_eq_getElem hi]
    · dsimp only
      by_cases hf : ((resolvedNames env).getD i "") ∈ env.failingTasks
      · rw [if_pos (by simpa using hf)]
        rw [h.stderr_eq]
        simp only [List.getD_eq_getElem?_getD] at hf
        simp [List.filter_append, hf]
      · rw [if_neg (by simpa using hf)]
        rw [h.stderr_eq]
        simp only [List.getD_eq_getElem?_getD] at hf
        simp [List.filter_append, hf]
    · intro hset hzip
      obtain ⟨-, herr, -⟩ := h.okpath hset hzip
      exact ⟨fun m hm => RunnerPc.noConfusion hm, herr,
        fun hd => RunnerPc.noConfusion hd⟩
    · intro hset hzip
      constructor
      · rintro (hx | hx) <;> exact RunnerPc.noConfusion hx
      · intro hd; exact RunnerPc.noConfusion hd
  case taskBump i =>
    have hi : i < (resolvedNames env).length :=
      h.loop_lt i (by rw [hpc]; rfl)
    split at hs
    case isTrue hlt =>
      obtain rfl : _ = c' := Option.some.inj hs
      refine ⟨h.total_eq, Nat.le_of_lt hlt, h.sess_le, h.hold_le, ?_, ?_,
        h.out_iff, h.out_val, ?_, h.stderr_eq, ?_, ?_⟩
      · intro j hj
        simp [loopIndex?] at hj
        rw [← hj]
        exact hlt
      · constructor
        · intro hcf
          have hdd := h.term_iff.mp hcf
          rw [hpc] at hdd
          exact RunnerPc.noConfusion hdd
        · intro hd; exact RunnerPc.noConfusion hd
      · intro hset
        have he := h.exec_eq hset
        rw [hpc] at he
        simpa [pcCount] using he
      · intro hset hzip
        obtain ⟨-, herr, -⟩ := h.okpath hset hzip
        exact ⟨fun m hm => RunnerPc.noConfusion hm, herr,
          fun hd => RunnerPc.noConfusion hd⟩
      · intro hset hzip
        constructor
        · rintro (hx | hx) <;> exact RunnerPc.noConfusion hx
        · intro hd; exact RunnerPc.noConfusion hd
    case isFalse hge =>
      obtain rfl : _ = c' := Option.some.inj hs
      have hEq : i + 1 = (resolvedNames env).length := by omega
      refine ⟨h.total_eq, Nat.le_of_eq hEq, h.sess_le, h.hold_le, ?_, ?_,
        h.out_iff, h.out_val, ?_, h.stderr_eq, ?_, ?_⟩
      · intro j hj; simp [loopIndex?] at hj
      · constructor
        · intro hcf
          have hdd := h.term_iff.mp hcf
          rw [hpc] at hdd
          exact RunnerPc.noConfusion hdd
        · intro hd; exact RunnerPc.noConfusion hd
      · intro hset
        have he := h.exec_eq hset
        rw [hpc] at he
        simp only [pcCount] at he ⊢
        rw [← hEq]
        exact he
      · intro hset hzip
        obtain ⟨-, herr, -⟩ := h.okpath hset hzip
        exact ⟨fun m hm => RunnerPc.noConfusion hm, herr,
          fun hd => RunnerPc.noConfusion hd⟩
      · intro hset hzip
        constructor
        · rintro (hx | hx) <;> exact RunnerPc.noConfusion hx
        · intro hd; exact RunnerPc.noConfusion hd
  case zipPrep =>
    obtain rfl : _ = c' := Option.some.inj hs
    refine ⟨h.total_eq, h.app_le, h.sess_le, h.hold_le, ?_, ?_,
      h.out_iff, h.out_val, ?_, h.stderr_eq, ?_, ?_⟩
    · intro i hi; simp [loopIndex?] at hi
    · constructor
      · intro hcf
        have hdd := h.term_iff.mp hcf
        rw [hpc] at hdd
        exact RunnerPc.noConfusion hdd
      · intro hd; exact RunnerPc.noConfusion hd
    · intro hset
      have he := h.exec_eq hset
      rw [hpc] at he
      simpa [pcCount] using he
    · intro hset hzip
      obtain ⟨-, herr, -⟩ := h.okpath hset hzip
      exact ⟨fun m hm => RunnerPc.noConfusion hm, herr,
        fun hd => RunnerPc.noConfusion hd⟩
    · intro hset hzip
      constructor
      · rintro (hx | hx) <;> exact RunnerPc.noConfusion hx
      · intro hd; exact RunnerPc.noConfusion hd
  case zip =>
    split at hs
    case isTrue hzip0 =>
      obtain rfl : _ = c' := Option.some.inj hs
      refine ⟨h.total_eq, h.app_le, h.sess_le, h.hold_le, ?_, ?_,
        h.out_iff, h.out_val, ?_, h.stderr_eq, ?_, ?_⟩
      · intro i hi; simp [loopIndex?] at hi
      · constructor
        · intro hcf
          have hdd := h.term_iff.mp hcf
          rw [hpc] at hdd
          exact RunnerPc.noConfusion hdd
        · intro hd; exact RunnerPc.noConfusion hd
      · intro hset
        have he := h.exec_eq hset
        rw [hpc] at he
        simpa [pcCount] using he
      · intro hset hzip
        obtain ⟨-, herr, -⟩ := h.okpath hset hzip
        exact ⟨fun m hm => RunnerPc.noConfusion hm, herr,
          fun hd => RunnerPc.noConfusion hd⟩
      · intro hset hzip
        constructor
        · rintro (hx | hx) <;> exact RunnerPc.noConfusion hx
        · intro hd; exact RunnerPc.noConfusion hd
    case isFalse hzipF =>
      obtain rfl : _ = c' := Option.some.inj hs
      refine ⟨h.total_eq, h.app_le, h.sess_le, h.hold_le, ?_, ?_,
        h.out_iff, h.out_val, ?_, h.stderr_eq, ?_, ?_⟩
      · intro i hi; simp [loopIndex?] at hi
      · constructor
        · intro hcf
          have hdd := h.term_iff.mp hcf
          rw [hpc] at hdd
          exact RunnerPc.noConfusion hdd
        · intro hd; exact RunnerPc.noConfusion hd
      · intro hset
        have he := h.exec_eq hset
        rw [hpc] at he
        simpa [pcCount] using he
      · intro hset hzip; exact absurd hzip hzipF
      · intro hset hzip; exact absurd hzip hzipF
  case finish =>
    obtain rfl : _ = c' := Option.some.inj hs
    refine ⟨h.total_eq, h.app_le, h.sess_le, h.hold_le, ?_, ?_,
      h.out_iff, h.out_val, ?_, h.stderr_eq, ?_, ?_⟩
    · intro i hi; simp [loopIndex?] at hi
    · constructor
      · intro hcf
        have hdd := h.term_iff.mp hcf
        rw [hpc] at hdd
        exact RunnerPc.noConfusion hdd
      · intro hd; exact RunnerPc.noConfusion hd
    · intro hset
      have he := h.exec_eq hset
      rw [hpc] at he
      simpa [pcCount] using he
    · intro hset hzip
      obtain ⟨-, herr, -⟩ := h.okpath hset hzip
      exact ⟨fun m hm => RunnerPc.noConfusion hm, herr,
        fun hd => RunnerPc.noConfusion hd⟩
    · intro hset hzip
      constructor
      · rintro (hx | hx) <;> exact RunnerPc.noConfusion hx
      · intro hd; exact RunnerPc.noConfusion hd
  case abortMonitor =>
    obtain rfl : _ = c' := Option.some.inj hs
    refine ⟨h.total_eq, h.app_le, h.sess_le, ?_, ?_, ?_,
      h.out_iff, h.out_val, ?_, h.stderr_eq, ?_, ?_⟩
    · intro p st ct tc tt ir heq; exact SamplerState.noConfusion heq
    · intro i hi; simp [loopIndex?] at hi
    · constructor
      · intro hcf
        have hdd := h.term_iff.mp hcf
        rw [hpc] at hdd
        exact RunnerPc.noConfusion hdd
      · intro hd; exact RunnerPc.noConfusion hd
    · intro hset
      have he := h.exec_eq hset
      rw [hpc] at he
      simpa [pcCount] using he
    · intro hset hzip
      obtain ⟨-, herr, -⟩ := h.okpath hset hzip
      exact ⟨fun m hm => RunnerPc.noConfusion hm, herr,
        fun hd => RunnerPc.noConfusion hd⟩
    · intro hset hzip
      exact ⟨fun _ => rfl, fun hd => RunnerPc.noConfusion hd⟩
  case finalizeOk =>
    obtain rfl : _ = c' := Option.some.inj hs
    refine ⟨h.total_eq, h.app_le, h.sess_le, h.hold_le, ?_, ?_, ?_,
      ?_, ?_, h.stderr_eq, ?_, ?_⟩
    · intro i hi; simp [loopIndex?] at hi
    · exact ⟨fun _ => rfl, fun _ => Or.inl rfl⟩
    · simp
    · exact Or.inr rfl
    · intro hset
      have he := h.exec_eq hset
      rw [hpc] at he
      simpa [pcCount] using he
    · intro hset hzip
      obtain ⟨-, herr, -⟩ := h.okpath hset hzip
      exact ⟨fun m hm => RunnerPc.noConfusion hm, herr, fun _ => rfl⟩
    · intro hset hzip
      refine ⟨fun _ => (h.oksampler hset hzip).1 (Or.inl hpc), ?_⟩
      intro hd
      simp [List.getLast?_concat]
  case finalizeErr msg =>
    obtain rfl : _ = c' := Option.some.inj hs
    have hnd : c.pc ≠ RunnerPc.done := by
      rw [hpc]; intro hx; exact RunnerPc.noConfusion hx
    have hout : c.sess.output_path = none := out_none_of_not_done env c h hnd
    refine ⟨h.total_eq, h.app_le, h.sess_le, h.hold_le, ?_, ?_, ?_,
      ?_, ?_, h.stderr_eq, ?_, ?_⟩
    · intro i hi; simp [loopIndex?] at hi
    · exact ⟨fun _ => rfl, fun _ => Or.inr rfl⟩
    · dsimp only
      rw [hout]
      simp
    · rcases h.out_val with hv | hv
      · exact Or.inl hv
      · exact Or.inr hv
    · intro hset
      have he := h.exec_eq hset
      rw [hpc] at he
      simpa [pcCount] using he
    · intro hset hzip
      obtain ⟨hne, -, -⟩ := h.okpath hset hzip
      exact absurd hpc (hne msg)
    · intro hset hzip
      obtain ⟨hne, -, -⟩ := h.okpath hset hzip
      exact absurd hpc (hne msg)
  case done => exact Option.noConfusion hs

/-- Every enabled action preserves the invariant. -/
theorem step_inv (env : Env) (c c' : Config) (a : Action) (h : Inv env c)
    (hs : step env c a = some c') : Inv env c' := by
  cases a
  case runner => exact runnerStep_inv env c c' h hs
  case samplerRead => exact samplerReadStep_inv env c c' h hs
  case samplerWrite => exact samplerWriteStep_inv env c c' h hs
  case cancel => exact cancelStep_inv env c c' h hs

/-- The invariant is preserved along any interleaving. -/
theorem run_inv (env : Env) : ∀ (acts : List Action) (c c' : Config),
    Inv env c → run env c acts = some c' → Inv env c'
  | [], c, c', h, hs => by
      simp only [run] at hs
      rw [← Option.some.inj hs]
      exact h
  | a :: rest, c, c', h, hs => by
      simp only [run] at hs
      cases hstep : step env c a with
      | none => rw [hstep] at hs; exact Option.noConfusion hs
      | some c1 =>
          rw [hstep] at hs
          exact run_inv env rest c1 c' (step_inv env c c1 a h hstep) hs

/-- Every configuration reachable from a fresh session satisfies the
invariant. -/
theorem reachable_inv (env : Env) (acts : List Action) (c : Config)
    (h : run env (init_config env) acts = some c) : Inv env c :=
  run_inv env acts (init_config env) c (init_inv env) h

/-- After the runner's terminal write (Completed or Failed), no action of
any actor changes the status any more. -/
theorem done_frozen (env : Env) : ∀ (acts : List Action) (c c' : Config),
    c.pc = RunnerPc.done →
    (c.sess.status = SessionStatus.completed ∨
      c.sess.status = SessionStatus.failed) →
    run env c acts = some c' →
    c'.sess.status = c.sess.status
  | [], c, c', _, _, hs => by
      simp only [run] at hs
      rw [← Option.some.inj hs]
  | a :: rest, c, c', hd, hcf, hs => by
      simp only [run] at hs
      cases hstep : step env c a with
      | none => rw [hstep] at hs; exact Option.noConfusion hs
      | some c1 =>
          rw [hstep] at hs
          have hkeep : c1.sess.status = c.sess.status ∧
              c1.pc = RunnerPc.done := by
            cases a with
            | runner =>
                simp only [step] at hstep
                unfold runnerStep at hstep
                rw [hd] at hstep
                exact Option.noConfusion hstep
            | samplerRead =>
                simp only [step] at hstep
                unfold samplerReadStep at hstep
                cases hsam : c.sampler <;> rw [hsam] at hstep
                case off => exact Option.noConfusion hstep
                case holding => exact Option.noConfusion hstep
                case stopped => exact Option.noConfusion hstep
                case idle =>
                  obtain rfl : _ = c1 := Option.some.inj hstep
                  exact ⟨rfl, hd⟩
            | samplerWrite =>
                simp only [step] at hstep
                unfold samplerWriteStep at hstep
                cases hsam : c.sampler <;> rw [hsam] at hstep
                case off => exact Option.noConfusion hstep
                case idle => exact Option.noConfusion hstep
                case stopped => exact Option.noConfusion hstep
                case holding =>
                  obtain rfl : _ = c1 := Option.some.inj hstep
                  exact ⟨rfl, hd⟩
            | cancel =>
                simp only [step] at hstep
                unfold cancelStep at hstep
                split at hstep
                case isTrue hrun =>
                  rcases hcf with hc | hc <;> rw [hc] at hrun <;>
                    exact SessionStatus.noConfusion hrun
                case isFalse =>
                  obtain rfl : _ = c1 := Option.some.inj hstep
                  exact ⟨rfl, hd⟩
          have hrec := done_frozen env rest c1 c' hkeep.2
            (by rw [hkeep.1]; exact hcf) hs
          rw [hrec, hkeep.1]

/-! ### Claim C1 — terminal statuses absorbing -/

/-- Claim C1 is false on the code: a session set to Cancelled does not
stay Cancelled.  After one runner block the session is Running and a
`cancel_session` call sets it to Cancelled; when the runner later
finishes, its final status write (`service.rs` lines 80-94) overwrites
the status unconditionally and the session ends Completed. -/
theorem C1_terminal_absorbing_counterexample :
    (run envOneTask (init_config envOneTask)
      [Action.runner, Action.cancel]).map (fun c => c.sess.status) =
      some SessionStatus.cancelled ∧
    (run envOneTask (init_config envOneTask)
      ([Action.runner, Action.cancel] ++
        List.replicate 11 Action.runner)).map (fun c => c.sess.status) =
      some SessionStatus.completed := by decide

/-- Claim C1 (amended): Completed and Failed are absorbing — once a
reachable session carries one of them, no interleaving of the runner's
final write, `cancel_session` calls, or the sampler's copy-back changes
the status again.  Cancelled is not absorbing: the runner's final write
overwrites it (see the counterexample). -/
theorem C1_completed_failed_absorbing (env : Env)
    (acts1 acts2 : List Action) (c c' : Config)
    (h1 : run env (init_config env) acts1 = some c)
    (hcf : c.sess.status = SessionStatus.completed ∨
      c.sess.status = SessionStatus.failed)
    (h2 : run env c acts2 = some c') :
    c'.sess.status = c.sess.status :=
  done_frozen env acts2 c c'
    ((reachable_inv env acts1 c h1).term_iff.mp hcf) hcf h2

/-- Witness for C1: a concretely Completed one-task session keeps status
Completed across a subsequent cancel attempt. -/
theorem C1_completed_failed_absorbing_witness :
    ((run envOneTask doneOneTask [Action.cancel]).get (by decide)).sess.status =
      doneOneTask.sess.status :=
  C1_completed_failed_absorbing envOneTask
    (List.replicate 12 Action.runner) [Action.cancel] doneOneTask _
    (Option.some_get _).symm (Or.inl (by decide)) (Option.some_get _).symm

/-! ### Claim C2 — cancellation at task boundaries -/

/-- Claim C2 is false on the code: no cancellation flag is ever checked
(`run_all_diagnostics` has no cancellation check, and `cancel_session`
writes only the session record, which the diagnostics loop never reads).
Cancelling while task 2 of 5 executes still runs tasks 3-5: all five
collectors are invoked, `completedTasks` reaches 5 (not 2) and the
session ends Completed (not Cancelled), although the cancel succeeded
(first conjunct: status was Cancelled right after the call). -/
theorem C2_cancellation_counterexample :
    (run envFiveTasks (init_config envFiveTasks)
      (List.replicate 8 Action.runner ++ [Action.cancel])).map
      (fun c => c.sess.status) = some SessionStatus.cancelled ∧
    (run envFiveTasks (init_config envFiveTasks)
      (List.replicate 8 Action.runner ++ [Action.cancel] ++
        List.replicate 11 Action.runner ++
        [Action.samplerRead, Action.samplerWrite] ++
        List.replicate 5 Action.runner)).map
      (fun c => (c.sess.status, c.sess.completed_tasks, c.executed)) =
      some (SessionStatus.completed, 5,
        ["Computer System", "Operating System", "BIOS", "BaseBoard",
         "Processor"]) := by decide

/-- Claim C2 (amended): a successful `cancel_session` does not stop the
runner.  Under every interleaving (cancels included) in which setup and
packaging succeed and the runner reaches its end, every resolved
collector has been invoked and the final status is Completed — the
transient Cancelled status is overwritten, and execution never halts at
the cancellation point. -/
theorem C2_cancel_does_not_stop (env : Env) (acts : List Action)
    (c : Config) (hset : env.setupOk = true) (hzip : env.zipOk = true)
    (h : run env (init_config env) acts = some c)
    (hd : c.pc = RunnerPc.done) :
    c.executed = resolvedNames env ∧
    c.sess.status = SessionStatus.completed := by
  have hi := reachable_inv env acts c h
  constructor
  · have he := hi.exec_eq hset
    rw [hd] at he
    simpa [pcCount, List.take_length] using he
  · exact (hi.okpath hset hzip).2.2 hd

/-- Witness for C2: the cancelled five-task run still executed all five
resolved collectors and ended Completed. -/
theorem C2_cancel_does_not_stop_witness :
    doneFiveCancelled.executed = resolvedNames envFiveTasks ∧
    doneFiveCancelled.sess.status = SessionStatus.completed :=
  C2_cancel_does_not_stop envFiveTasks _ doneFiveCancelled rfl rfl
    (Option.some_get _).symm (by decide)

/-! ### Claim C3 — totalTasks and id resolution -/

/-- Claim C3 is false on the code: `total_tasks` is the number of
*requested* ids (`service.rs` line 54), not of resolved ids.  Requesting
`["processor", "unknown_id"]` yields `totalTasks == 2` in the initial
record and still 2 in the final Completed session; only one catalog task
resolves. -/
theorem C3_total_tasks_counterexample :
    (initial_session 0 0 ["processor", "unknown_id"]).total_tasks = 2 ∧
    ((selected_diagnostics ["processor", "unknown_id"]).map
      (fun t => t.name)) = ["Processor"] ∧
    (run envUnknown (init_config envUnknown)
      (List.replicate 12 Action.runner)).map
      (fun c => (c.sess.total_tasks, c.sess.status)) =
      some (2, SessionStatus.completed) := by decide

/-- Claim C3 (amended): in every reachable configuration `totalTasks`
equals the *requested* id count — unmatched ids are counted, not
dropped — while the resolution used for execution keeps exactly the
catalog tasks whose derived id occurs in the request, so the resolved
list is never longer than the request. -/
theorem C3_total_is_requested (env : Env) (acts : List Action)
    (c : Config) (h : run env (init_config env) acts = some c) :
    c.sess.total_tasks = env.requested.length ∧
    (∀ t, t ∈ resolvedTasks env → rustTaskId t.name ∈ env.requested) ∧
    (resolvedNames env).length ≤ env.requested.length :=
  ⟨(reachable_inv env acts c h).total_eq, resolved_mem_requested env,
    resolved_le env⟩

/-- Witness for C3 on the `["processor", "unknown_id"]` request. -/
theorem C3_total_is_requested_witness :
    doneUnknown.sess.total_tasks = 2 ∧
    rustTaskId "Processor" ∈ envUnknown.requested :=
  ⟨(C3_total_is_requested envUnknown (List.replicate 12 Action.runner)
      doneUnknown (Option.some_get _).symm).1,
   (C3_total_is_requested envUnknown (List.replicate 12 Action.runner)
      doneUnknown (Option.some_get _).symm).2.1
      { name := "Processor", admin_required := false } (by decide)⟩

/-! ### Claim C4 — continue-on-error and error recording -/

/-- Claim C4 is false on the code: with the single requested collector
always failing, the session still reaches Completed (continue-on-error
holds) but its `errors` list stays empty — the failure is only printed
to stderr as `Error in task Processor: boom`
(`src/diagnostics.rs` lines 131-133), never appended to the session. -/
theorem C4_errors_counterexample :
    (run envFailingCollector (init_config envFailingCollector)
      (List.replicate 12 Action.runner)).map
      (fun c => (c.sess.status, c.sess.errors, c.stderrLog)) =
      some (SessionStatus.completed, [],
        ["Error in task Processor: boom"]) := by decide

/-- Claim C4 (amended): a collector failure is logged to stderr as
`Error in task <task>: <cause>` and execution continues with the next
task; the session reaches Completed with `errors` empty — per-task
failures are never recorded in the session record (only setup/packaging
failures reach `errors`, on the Failed path). -/
theorem C4_continue_on_error (env : Env) (acts : List Action)
    (c : Config) (hset : env.setupOk = true) (hzip : env.zipOk = true)
    (h : run env (init_config env) acts = some c)
    (hd : c.pc = RunnerPc.done) :
    c.sess.status = SessionStatus.completed ∧
    c.sess.errors = [] ∧
    c.stderrLog = ((resolvedNames env).filter
      (fun n => env.failingTasks.contains n)).map
      (fun n => stderrLine n env.failMsg) := by
  have hi := reachable_inv env acts c h
  obtain ⟨-, herr, hdone⟩ := hi.okpath hset hzip
  refine ⟨hdone hd, herr, ?_⟩
  have he := hi.exec_eq hset
  rw [hd] at he
  have hexec : c.executed = resolvedNames env := by
    simpa [pcCount, List.take_length] using he
  rw [hi.stderr_eq, hexec]

/-- Witness for C4 on the always-failing one-task run. -/
theorem C4_continue_on_error_witness :
    doneFailing.sess.status = SessionStatus.completed ∧
    doneFailing.sess.errors = [] ∧
    doneFailing.stderrLog = ((resolvedNames envFailingCollector).filter
      (fun n => envFailingCollector.failingTasks.contains n)).map
      (fun n => stderrLine n envFailingCollector.failMsg) :=
  C4_continue_on_error envFailingCollector _ doneFailing rfl rfl
    (Option.some_get _).symm (by decide)

/-! ### Claim C5 — progress / outputPath vs Completed -/

/-- Claim C5 is false on the code for the progress half: after the last
task's bookkeeping the sampler copies `progress = 1` into a session that
is still Running (first conjunct), and a Completed session keeps
`progress = 0` when no sampler tick copied the final value before the
abort (second conjunct) — the final status write never touches
`progress`. -/
theorem C5_progress_iff_completed_counterexample :
    (run envOneTask (init_config envOneTask)
      (List.replicate 7 Action.runner ++
        [Action.samplerRead, Action.samplerWrite])).map
      (fun c => c.sess.status) = some SessionStatus.running ∧
    (run envOneTask (init_config envOneTask)
      (List.replicate 7 Action.runner ++
        [Action.samplerRead, Action.samplerWrite])).map
      (fun c => c.sess.progress) = some 1 ∧
    (run envOneTask (init_config envOneTask)
      (List.replicate 12 Action.runner)).map
      (fun c => (c.sess.status, c.sess.progress)) =
      some (SessionStatus.completed, 0) := by
  refine ⟨by decide, ?_, by decide⟩
  have hrfl : (run envOneTask (init_config envOneTask)
      (List.replicate 7 Action.runner ++
        [Action.samplerRead, Action.samplerWrite])).map
      (fun c => c.sess.progress) =
      some ((((0 : Nat) : ℚ) + 1) /
        (((resolvedNames envOneTask).length : Nat) : ℚ)) := rfl
  rw [hrfl]
  have hlen : (resolvedNames envOneTask).length = 1 := by decide
  rw [hlen]
  norm_num

/-- Claim C5 (amended): the outputPath half holds — in every reachable
configuration the session carries a (non-empty) output path exactly when
its status is Completed.  The progress half fails in both directions
(see the counterexample). -/
theorem C5_output_iff_completed (env : Env) (acts : List Action)
    (c : Config) (h : run env (init_config env) acts = some c) :
    (c.sess.output_path ≠ none ↔
      c.sess.status = SessionStatus.completed) ∧
    (∀ p, c.sess.output_path = some p → p ≠ "") := by
  have hi := reachable_inv env acts c h
  constructor
  · exact Option.isSome_iff_ne_none.symm.trans hi.out_iff
  · intro p hp
    rcases hi.out_val with hv | hv
    · rw [hp] at hv; exact Option.noConfusion hv
    · rw [hp] at hv
      obtain rfl : p = returned_path env := Option.some.inj hv
      exact returned_path_ne_empty env

/-- Witness for C5 on the completed one-task run. -/
theorem C5_output_iff_completed_witness :
    (doneOneTask.sess.output_path ≠ none ↔
      doneOneTask.sess.status = SessionStatus.completed) ∧
    ("/home/user/Desktop/WF-Diag_0.zip" ≠ "") :=
  ⟨(C5_output_iff_completed envOneTask (List.replicate 12 Action.runner)
      doneOneTask (Option.some_get _).symm).1,
   (C5_output_iff_completed envOneTask (List.replicate 12 Action.runner)
      doneOneTask (Option.some_get _).symm).2 _ (by decide)⟩

/-! ### Claim C6 — completedTasks ≤ totalTasks -/

/-- Claim C6: in every reachable configuration, under every interleaving
of the runner's updates, the sampler's copy-back, and cancel calls —
including requests with unknown or duplicate ids, where the number of
executed tasks differs from the requested count —
`completedTasks ≤ totalTasks`. -/
theorem C6_completed_le_total (env : Env) (acts : List Action)
    (c : Config) (h : run env (init_config env) acts = some c) :
    c.sess.completed_tasks ≤ c.sess.total_tasks := by
  have hi := reachable_inv env acts c h
  calc c.sess.completed_tasks
      ≤ (resolvedNames env).length := hi.sess_le
    _ ≤ env.requested.length := resolved_le env
    _ = c.sess.total_tasks := hi.total_eq.symm

/-- Witness for C6 at a concrete interleaving with a duplicate and an
unknown id, sampled mid-run. -/
theorem C6_completed_le_total_witness :
    midDupUnknown.sess.completed_tasks ≤
      midDupUnknown.sess.total_tasks :=
  C6_completed_le_total envDupUnknown
    (List.replicate 7 Action.runner ++
      [Action.samplerRead, Action.samplerWrite])
    midDupUnknown (Option.some_get _).symm

/-! ### Claim C7 — cancelSession success condition -/

/-- Claim C7: `cancel_session` succeeds exactly when the session exists
and is Running (`service.rs` lines 125-139), errs otherwise (Pending,
Completed, Failed, Cancelled, or unknown id), and a second immediate
cancel on the same session returns the not-running error. -/
theorem C7_cancel_ok_iff (s : StoreF) (sid now : Nat) :
    ((cancel_session s sid now).2 = CancelResult.ok ↔
      ∃ sess, s sid = some sess ∧
        sess.status = SessionStatus.running) ∧
    ((cancel_session s sid now).2 = CancelResult.ok →
      ∀ now2, (cancel_session (cancel_session s sid now).1 sid now2).2 =
        CancelResult.errNotRunning) := by
  have hcompute : ∀ (s2 : StoreF) (sess2 : DiagnosticSession)
      (now2 : Nat), s2 sid = some sess2 →
      sess2.status ≠ SessionStatus.running →
      (cancel_session s2 sid now2).2 = CancelResult.errNotRunning := by
    intro s2 sess2 now2 h1 h2
    unfold cancel_session
    rw [h1]
    dsimp only
    rw [if_neg h2]
  have hmp : (cancel_session s sid now).2 = CancelResult.ok →
      ∃ sess, s sid = some sess ∧
        sess.status = SessionStatus.running := by
    intro hok
    unfold cancel_session at hok
    cases hsid : s sid with
    | none => rw [hsid] at hok; exact CancelResult.noConfusion hok
    | some sess =>
        rw [hsid] at hok
        dsimp only at hok
        by_cases hrun : sess.status = SessionStatus.running
        · exact ⟨sess, rfl, hrun⟩
        · rw [if_neg hrun] at hok
          exact CancelResult.noConfusion hok
  have hmpr : (∃ sess, s sid = some sess ∧
      sess.status = SessionStatus.running) →
      (cancel_session s sid now).2 = CancelResult.ok := by
    rintro ⟨sess, hsid, hrun⟩
    unfold cancel_session
    rw [hsid]
    dsimp only
    rw [if_pos hrun]
  refine ⟨⟨hmp, hmpr⟩, ?_⟩
  intro hok now2
  obtain ⟨sess, hsid, hrun⟩ := hmp hok
  have hstore : (cancel_session s sid now).1 sid =
      some { sess with
        status := SessionStatus.cancelled
        completed_at := some now } := by
    unfold cancel_session
    rw [hsid]
    dsimp only
    rw [if_pos hrun]
    simp
  exact hcompute _ _ now2 hstore
    (fun hx => SessionStatus.noConfusion hx)

/-- Witness for C7: cancelling a stored Running session succeeds once
and returns the not-running error the second time. -/
theorem C7_cancel_ok_iff_witness :
    (cancel_session storeRunning 5 10).2 = CancelResult.ok ∧
    (cancel_session (cancel_session storeRunning 5 10).1 5 11).2 =
      CancelResult.errNotRunning :=
  ⟨(C7_cancel_ok_iff storeRunning 5 10).1.mpr ⟨sessRunning, rfl, rfl⟩,
   (C7_cancel_ok_iff storeRunning 5 10).2
     ((C7_cancel_ok_iff storeRunning 5 10).1.mpr
       ⟨sessRunning, rfl, rfl⟩) 11⟩

/-! ### Claim C8 — duplicate insertion -/

/-- Claim C8 is false on the code: `start_diagnostics` inserts with a
plain `HashMap::insert` (`service.rs` line 62); inserting a different
record under an already-present id silently replaces the stored record —
no `DuplicateSessionError` path exists and the previous record is
lost. -/
theorem C8_duplicate_insert_counterexample :
    store_insert storeWithFirst 7 sessSecond 7 = some sessSecond ∧
    sessSecond ≠ sessFirst := by
  constructor
  · rfl
  · decide

/-- Claim C8 (amended): insertion under an existing id silently replaces
the stored record and leaves every other id untouched; the operation has
no failure outcome at all (ids come from `Uuid::new_v4`, so collisions
are improbable but unguarded). -/
theorem C8_insert_replaces (s : StoreF) (sid : Nat)
    (v : DiagnosticSession) :
    store_insert s sid v sid = some v ∧
    ∀ k, k ≠ sid → store_insert s sid v k = s k := by
  constructor
  · unfold store_insert; simp
  · intro k hk; unfold store_insert; simp [hk]

/-- Witness for C8 on the concrete duplicate insertion. -/
theorem C8_insert_replaces_witness :
    store_insert storeWithFirst 7 sessSecond 7 = some sessSecond ∧
    store_insert storeWithFirst 7 sessSecond 3 = storeWithFirst 3 :=
  ⟨(C8_insert_replaces storeWithFirst 7 sessSecond).1,
   (C8_insert_replaces storeWithFirst 7 sessSecond).2 3 (by decide)⟩

/-! ### Claim C9 — the sampler's last update -/

/-- Claim C9 is false on the code: on the diagnostics-failure path the
`?` at `service.rs` line 265 returns before `monitor_handle.abort()` on
line 268 and `is_running` is never cleared, so the sampler is never
stopped: after the runner's final Failed update (first list entry) the
sampler emits two more updates and is still live (`idle`) — it does not
terminate upon observing the terminal status it keeps reading. -/
theorem C9_sampler_counterexample :
    (run envZipFail (init_config envZipFail)
      (List.replicate 10 Action.runner ++
        [Action.samplerRead, Action.samplerWrite,
         Action.samplerRead, Action.samplerWrite])).map
      (fun c => (c.updates.map (fun u => u.status), c.sampler)) =
      some ([SessionStatus.failed, SessionStatus.failed,
        SessionStatus.failed], SamplerState.idle) := by decide

/-- Claim C9 (amended): the guarantee holds only on the success path,
and the final terminal update comes from the runner, not the sampler:
when setup and packaging succeed and the runner reaches its end, the
sampler has been aborted, the last emitted update carries Completed, and
no action can emit a further update.  The sampler itself never stops by
observing a terminal status (it only checks `is_running`), and on the
failure path it keeps emitting after the final Failed update (see the
counterexample). -/
theorem C9_final_update (env : Env) (acts : List Action) (c : Config)
    (hset : env.setupOk = true) (hzip : env.zipOk = true)
    (h : run env (init_config env) acts = some c)
    (hd : c.pc = RunnerPc.done) :
    c.sampler = SamplerState.stopped ∧
    (c.updates.getLast?).map (fun u => u.status) =
      some SessionStatus.completed ∧
    (∀ a c', step env c a = some c' → c'.updates = c.updates) := by
  have hi := reachable_inv env acts c h
  obtain ⟨hstop, hlast⟩ := hi.oksampler hset hzip
  have hsam := hstop (Or.inr hd)
  refine ⟨hsam, hlast hd, ?_⟩
  intro a c' hs
  cases a
  case runner =>
    simp only [step] at hs
    unfold runnerStep at hs
    rw [hd] at hs
    exact Option.noConfusion hs
  case samplerRead =>
    simp only [step] at hs
    unfold samplerReadStep at hs
    rw [hsam] at hs
    exact Option.noConfusion hs
  case samplerWrite =>
    simp only [step] at hs
    unfold samplerWriteStep at hs
    rw [hsam] at hs
    exact Option.noConfusion hs
  case cancel =>
    simp only [step] at hs
    unfold cancelStep at hs
    split at hs <;> (obtain rfl : _ = c' := Option.some.inj hs; rfl)

/-- Witness for C9 on the completed one-task run. -/
theorem C9_final_update_witness :
    doneOneTask.sampler = SamplerState.stopped ∧
    (doneOneTask.updates.getLast?).map (fun u => u.status) =
      some SessionStatus.completed :=
  ⟨(C9_final_update envOneTask (List.replicate 12 Action.runner)
      doneOneTask rfl rfl (Option.some_get _).symm (by decide)).1,
   (C9_final_update envOneTask (List.replicate 12 Action.runner)
      doneOneTask rfl rfl (Option.some_get _).symm (by decide)).2.1⟩

/-! ### Claim C10 — frame condition of cancelSession -/

/-- Claim C10: when `cancel_session` succeeds on a stored Running
session it rewrites that entry to the same record with only `status`
(to Cancelled) and `completed_at` changed — every other field is pinned
by the record update — and leaves every other id untouched; when it
fails, the store is completely unchanged. -/
theorem C10_cancel_frame (s : StoreF) (sid now : Nat) :
    (∀ sess, s sid = some sess →
      sess.status = SessionStatus.running →
      (cancel_session s sid now).1 sid =
        some { sess with
          status := SessionStatus.cancelled
          completed_at := some now } ∧
      (∀ k, k ≠ sid → (cancel_session s sid now).1 k = s k)) ∧
    ((cancel_session s sid now).2 ≠ CancelResult.ok →
      (cancel_session s sid now).1 = s) := by
  constructor
  · intro sess hsid hrun
    constructor
    · unfold cancel_session
      rw [hsid]
      dsimp only
      rw [if_pos hrun]
      simp
    · intro k hk
      unfold cancel_session
      rw [hsid]
      dsimp only
      rw [if_pos hrun]
      simp [hk]
  · intro hne
    unfold cancel_session at hne ⊢
    cases hsid : s sid with
    | none => rfl
    | some sess =>
        rw [hsid] at hne
        dsimp only at hne ⊢
        by_cases hrun : sess.status = SessionStatus.running
        · rw [if_pos hrun] at hne
          exact absurd rfl hne
        · rw [if_neg hrun]

/-- Witness for C10: the concrete Running session is rewritten to the
cancelled copy, a different id is untouched, and a failing cancel leaves
the Pending store identical. -/
theorem C10_cancel_frame_witness :
    (cancel_session storeRunning 5 10).1 5 =
      some { sessRunning with
        status := SessionStatus.cancelled
        completed_at := some 10 } ∧
    (cancel_session storeRunning 5 10).1 3 = storeRunning 3 ∧
    (cancel_session storePending 6 99).1 = storePending :=
  ⟨((C10_cancel_frame storeRunning 5 10).1 sessRunning rfl rfl).1,
   ((C10_cancel_frame storeRunning 5 10).1 sessRunning rfl rfl).2 3
     (by decide),
   (C10_cancel_frame storePending 6 99).2 (by decide)⟩

end Wfdiag
